import Mathlib

/-!
Verification of the chess-opening-recommender repository.

Part 1 embeds the data-collection code of
`src/notebooks/data_collection.ipynb`: `fetch_user_games`,
`pgn_to_games_df` and `parse_elite_pgn_fast`.  The python-chess reading
layer (`chess.pgn.read_game`) is an external library; a PGN text is
modelled as the list of `Game` values the reader yields before returning
`None` at end of input, and the per-node attribute semantics of
python-chess (`GameNode.eval` is a method of the class) are encoded
explicitly.

Part 2 models, from the specification, the core pipeline components that
are not present under `src/`: the Style Aggregator, Archetype Clusterer,
Peer Matcher and Opening Recommender.
-/

namespace ChessRec

/-- A board square, one of 64, as addressed by coordinate (UCI) notation. -/
abbrev Square := Fin 64

/-- Name of a square in coordinate notation: file letter then rank digit. -/
def squareName (s : Square) : String :=
  String.mk [Char.ofNat (97 + s.val % 8), Char.ofNat (49 + s.val / 8)]

/-- A chess move as carried by a game node: origin square, destination
square and optional promotion piece letter, as in the python-chess Move
object. -/
structure Move where
  source : Square
  target : Square
  promotion : Option Char
deriving DecidableEq

/-- Coordinate string of a move, as returned by `Move.uci()`:
origin square name, destination square name, promotion letter if any. -/
def Move.uci (m : Move) : String :=
  squareName m.source ++ squareName m.target ++
    (match m.promotion with
     | some c => String.mk [c]
     | none => "")

/-- One mainline node of a parsed game (the `node.variation(0)` chain):
the move leading to the node, and the numeric engine evaluation parsed
from a `[%eval ...]` comment when one is present (retrievable in
python-chess by calling the `eval()` method). -/
structure GameNode where
  move : Move
  evalAnn : Option Int
deriving DecidableEq

/-- A parsed game as returned by `chess.pgn.read_game`: the PGN tag pairs,
the mainline nodes, and the parse errors the reader collected while
recovering from malformed movetext (the reader returns a `Game` even for a
malformed record; it returns `None` only at end of input). -/
structure Game where
  headers : List (String × String)
  mainline : List GameNode
  errors : List String
deriving DecidableEq

/-- Headers `.get(key)`: value of the first tag pair with the given name. -/
def headersGet (hdr : List (String × String)) (k : String) : Option String :=
  (hdr.find? (fun p => p.1 == k)).map (fun p => p.2)

/-- Headers `.get(key, default)`. -/
def headersGetD (hdr : List (String × String)) (k d : String) : String :=
  (headersGet hdr k).getD d

/-- The value obtained by the attribute access `nxt.eval` in the parsing
loops.  In python-chess, `eval` is a method of `GameNode`, so the access
yields the bound method object — carrying the node's annotation but not
equal to a numeric score. -/
inductive EvalEntry where
  | boundMethod (ann : Option Int)
  | score (cp : Int)
deriving DecidableEq

/-- The attribute lookup `nxt.eval`: since `GameNode.eval` is a method of
the class, `hasattr(nxt, "eval")` is true at every node and the lookup
yields the bound method object, which is never `None`. -/
def nodeEvalAttr (n : GameNode) : Option EvalEntry :=
  some (EvalEntry.boundMethod n.evalAnn)

/-- One row of the DataFrame built by `pgn_to_games_df` or
`parse_elite_pgn_fast`. -/
structure GameRec where
  white : Option String
  black : Option String
  result : Option String
  eco : Option String
  opening : Option String
  utc_date : Option String
  utc_time : Option String
  time_control : Option String
  moves : List String
  evals : List EvalEntry
deriving DecidableEq

/-- The header-derived columns of a record, as a key-value mapping. -/
def GameRec.headerMapping (r : GameRec) : List (String × Option String) :=
  [("White", r.white), ("Black", r.black), ("Result", r.result),
   ("ECO", r.eco), ("Opening", r.opening), ("UTCDate", r.utc_date),
   ("UTCTime", r.utc_time), ("TimeControl", r.time_control)]

/-- The moves list collected by the `while node.variations` loop: the UCI
string of each mainline move, appended in order. -/
def gameMoves (g : Game) : List String :=
  g.mainline.map (fun n => n.move.uci)

/-- The evals list collected by the same loop: `nxt.eval` is appended
whenever `hasattr(nxt, "eval") and nxt.eval is not None` holds. -/
def gameEvals (g : Game) : List EvalEntry :=
  g.mainline.filterMap nodeEvalAttr

/-- The record appended for one game by `pgn_to_games_df`. -/
def gameToRec (g : Game) : GameRec :=
  { white := headersGet g.headers "White"
    black := headersGet g.headers "Black"
    result := headersGet g.headers "Result"
    eco := headersGet g.headers "ECO"
    opening := headersGet g.headers "Opening"
    utc_date := headersGet g.headers "UTCDate"
    utc_time := headersGet g.headers "UTCTime"
    time_control := headersGet g.headers "TimeControl"
    moves := gameMoves g
    evals := gameEvals g }

/-- `pgn_to_games_df`: parse a multi-game PGN string into a DataFrame.
The input stream is the list of games `chess.pgn.read_game` yields before
returning `None` at end of input; the loop converts each into one record. -/
def pgn_to_games_df (games : List Game) : List GameRec :=
  games.map gameToRec

/-- The record appended for one game by `parse_elite_pgn_fast`: identical
to `gameToRec` except that the Opening tag is read with default `""`. -/
def eliteGameToRec (g : Game) : GameRec :=
  { gameToRec g with opening := some (headersGetD g.headers "Opening" "") }

/-- `parse_elite_pgn_fast`: stream the first `n_games` games from the
elite PGN file (the loop runs `n_games` times and breaks early when
`read_game` returns `None` at end of file), one record per game. -/
def parse_elite_pgn_fast (fileGames : List Game) (n_games : Nat) : List GameRec :=
  (fileGames.take n_games).map eliteGameToRec

/-- A game the reader parsed without recording any error. -/
def wellFormedGame (g : Game) : Bool :=
  g.errors.isEmpty

/-- Outcome of the `requests.get` call inside `fetch_user_games`: either a
response object (whose `raise_for_status()` raises an `HTTPError`, a
subclass of `RequestException`, exactly when the status is an error), or a
`requests.RequestException` raised by the request itself. -/
structure HttpResponse where
  text : String
  statusError : Bool
deriving DecidableEq

/-- The two ways the guarded block of `fetch_user_games` can go. -/
inductive FetchOutcome where
  | response (r : HttpResponse)
  | requestFailure
deriving DecidableEq

/-- `fetch_user_games`: returns `response.text` on success; any
`RequestException` (including the one raised by `raise_for_status`) is
caught, a message is printed, and the empty string is returned. -/
def fetch_user_games (outcome : FetchOutcome) : String :=
  match outcome with
  | FetchOutcome.response r => if r.statusError then "" else r.text
  | FetchOutcome.requestFailure => ""

/-- A concrete malformed game record: `read_game` recovered, kept the
headers it could read, and collected the error. -/
def badGame : Game :=
  { headers := [("White", "a"), ("Black", "b"), ("Result", "*")]
    mainline := []
    errors := ["illegal san in movetext"] }

/-- A concrete one-move game (pawn e2 to e4, with an engine annotation)
used by the C9 witness. -/
def sampleGame : Game :=
  { headers := [("White", "a"), ("Black", "b"), ("Result", "1-0")]
    mainline := [{ move := { source := ⟨12, by omega⟩, target := ⟨28, by omega⟩,
                             promotion := none },
                   evalAnn := some 25 }]
    errors := [] }

/-! ## Core pipeline, modelled from the specification

The Feature Extractor, Style Aggregator, Archetype Clusterer, Peer
Matcher and Opening Recommender are described by the specification but
their code is not under `src/`; the definitions below are modelled from
the specification's words, with exact rational arithmetic. -/

/-- Arithmetic mean of a list of rationals (0 for the empty list). -/
def meanQ (xs : List ℚ) : ℚ :=
  xs.sum / (xs.length : ℚ)

/-- Proportion of entries of a boolean column that are true. -/
def proportionTrue (bs : List Bool) : ℚ :=
  ((bs.countP (fun b => b) : Nat) : ℚ) / (bs.length : ℚ)

/-- Modelled from the spec: a GameFeatureRow — the per-game scalar metrics
the Feature Extractor derives for one player's perspective; the
first-queen-move ply is an explicit optional (absent when the queen never
moved), never a magic number. -/
structure GameFeatureRow where
  ply_count : ℚ
  trade_count : ℚ
  first_queen_ply : Option ℚ
  castled_early : Bool
  check_count : ℚ
  sacrifice : Bool
  result_score : ℚ
deriving DecidableEq

/-- A StyleVector: a fixed-order, fixed-length list of rationals. -/
abbrev StyleVec := List ℚ

/-- Modelled from the spec: the Style Aggregator — reduce a player's
GameFeatureRows to one fixed-order StyleVector: arithmetic means of the
continuous metrics, proportions for the boolean metrics, with absent
first-queen-ply values excluded from that feature's denominator. -/
def aggregateStyle (rows : List GameFeatureRow) : StyleVec :=
  [ meanQ (rows.map (fun r => r.ply_count)),
    meanQ (rows.map (fun r => r.trade_count)),
    meanQ (rows.filterMap (fun r => r.first_queen_ply)),
    proportionTrue (rows.map (fun r => r.castled_early)),
    meanQ (rows.map (fun r => r.check_count)),
    proportionTrue (rows.map (fun r => r.sacrifice)),
    meanQ (rows.map (fun r => r.result_score)) ]

/-- A first concrete feature row, for the C6 witness. -/
def rowA : GameFeatureRow :=
  { ply_count := 60, trade_count := 4, first_queen_ply := some 9,
    castled_early := true, check_count := 3, sacrifice := false,
    result_score := 1 }

/-- A second concrete feature row, for the C6 witness. -/
def rowB : GameFeatureRow :=
  { ply_count := 41, trade_count := 2, first_queen_ply := none,
    castled_early := false, check_count := 0, sacrifice := true,
    result_score := 1/2 }

/-- The side a game was played from. -/
inductive Side where
  | white
  | black
deriving DecidableEq

/-- Result of a game from the owning peer's perspective. -/
inductive GResult where
  | win
  | draw
  | loss
deriving DecidableEq

/-- Modelled from the spec: one stored opening outcome of a matched peer —
the ECO code, the side the peer played, the result from that side. -/
structure OpeningOutcome where
  eco : String
  side : Side
  result : GResult
deriving DecidableEq

/-- The matched peers' games with a given code on the requested side. -/
def outcomesFor (games : List OpeningOutcome) (side : Side) (code : String) :
    List OpeningOutcome :=
  games.filter (fun g => g.side == side && g.eco == code)

/-- Number of wins among a group of outcomes. -/
def winCount (gs : List OpeningOutcome) : Nat :=
  gs.countP (fun g => g.result == GResult.win)

/-- Number of draws among a group of outcomes. -/
def drawCount (gs : List OpeningOutcome) : Nat :=
  gs.countP (fun g => g.result == GResult.draw)

/-- Number of losses among a group of outcomes. -/
def lossCount (gs : List OpeningOutcome) : Nat :=
  gs.countP (fun g => g.result == GResult.loss)

/-- Modelled from the spec: the Opening Recommender's per-code score,
score_pct = (wins + 0.5 * draws) / games_played, over the matched peers'
games with that code on the requested side. -/
def score_pct (games : List OpeningOutcome) (side : Side) (code : String) : ℚ :=
  ((winCount (outcomesFor games side code) : ℚ)
    + (drawCount (outcomesFor games side code) : ℚ) / 2)
  / (((outcomesFor games side code).length : Nat) : ℚ)

/-- Short constructor for an opening outcome. -/
def oc (e : String) (s : Side) (r : GResult) : OpeningOutcome :=
  { eco := e, side := s, result := r }

/-- The peer set of Scenario 3: opening C72 as White has 10 games — 6
wins, 2 draws, 2 losses — next to games with another code and games with
the same code on the other side. -/
def scenarioPeerGames : List OpeningOutcome :=
  [ oc "C72" Side.white GResult.win, oc "C72" Side.white GResult.win,
    oc "C72" Side.white GResult.win, oc "C72" Side.white GResult.win,
    oc "C72" Side.white GResult.win, oc "C72" Side.white GResult.win,
    oc "C72" Side.white GResult.draw, oc "C72" Side.white GResult.draw,
    oc "C72" Side.white GResult.loss, oc "C72" Side.white GResult.loss,
    oc "B12" Side.white GResult.win, oc "C72" Side.black GResult.loss ]

/-- The error kinds of the specification's error taxonomy that the core
pipeline can raise per request. -/
inductive PipelineError where
  | configurationError
  | insufficientDataError
  | consistencyError
deriving DecidableEq

/-- Absolute value of a rational. -/
def absQ (q : ℚ) : ℚ :=
  if q < 0 then -q else q

/-- Feature count of a reference set: length of its first vector. -/
def dimOf (vecs : List StyleVec) : Nat :=
  (vecs.headD []).length

/-- Column of feature j across a set of vectors. -/
def columnOf (vecs : List StyleVec) (j : Nat) : List ℚ :=
  vecs.map (fun v => v.getD j 0)

/-- Modelled from the spec: per-feature center of the reference set — the
mean of each feature column. -/
def centerOf (vecs : List StyleVec) : StyleVec :=
  (List.range (dimOf vecs)).map (fun j => meanQ (columnOf vecs j))

/-- Modelled from the spec: per-feature scale of the reference set.  The
spec fixes only that a center/scale pair is fit on the reference set; the
mean absolute deviation is chosen here (any constant column gets scale 1
so that normalization stays defined). -/
def scaleOf (vecs : List StyleVec) : StyleVec :=
  (List.range (dimOf vecs)).map (fun j =>
    let c := meanQ (columnOf vecs j)
    let s := meanQ ((columnOf vecs j).map (fun x => absQ (x - c)))
    if s = 0 then 1 else s)

/-- Normalization transform: center and rescale every feature. -/
def normalizeVec (center scale v : StyleVec) : StyleVec :=
  (List.range center.length).map (fun j =>
    (v.getD j 0 - center.getD j 0) / scale.getD j 1)

/-- Squared Euclidean distance between two style vectors (monotone image
of the Euclidean distance, so it induces the same ranking, the same ties
and the same zeros). -/
def sqDist (v w : StyleVec) : ℚ :=
  (List.zipWith (fun a b => (a - b) * (a - b)) v w).sum

/-- Index of the minimum of a distance list, lower index winning ties:
the accumulator keeps the first index attaining the best value. -/
def argminAux : List ℚ → Nat → Nat → ℚ → Nat
  | [], _, best, _ => best
  | d :: rest, i, best, bestD =>
    if d < bestD then argminAux rest (i + 1) i d
    else argminAux rest (i + 1) best bestD

/-- Modelled from the spec: index of the nearest centroid by Euclidean
distance, ties broken toward the lower-indexed centroid. -/
def nearestIdx (cents : List StyleVec) (v : StyleVec) : Nat :=
  match cents.map (fun c => sqDist c v) with
  | [] => 0
  | d :: rest => argminAux rest 1 0 d

/-- Recompute one centroid as the per-feature mean of its assigned
vectors, keeping the old centroid when no vector is assigned to it. -/
def updateCentroid (vecs : List StyleVec) (labels : List Nat) (k : Nat)
    (old : StyleVec) : StyleVec :=
  let members := ((vecs.zip labels).filter (fun p => p.2 == k)).map (fun p => p.1)
  if members.isEmpty then old
  else (List.range old.length).map (fun j => meanQ (columnOf members j))

/-- Recompute every centroid from the current assignment. -/
def updateCentroids (vecs : List StyleVec) (labels : List Nat)
    (cents : List StyleVec) : List StyleVec :=
  cents.enum.map (fun p => updateCentroid vecs labels p.1 p.2)

/-- Modelled from the spec: the K-means refinement loop — assign each
vector to its nearest centroid (lower index on ties), recompute centroids,
and stop when the centroids stabilize or the iteration budget runs out. -/
def kmeansLoop (vecs : List StyleVec) (cents : List StyleVec) :
    Nat → List StyleVec × List Nat
  | 0 => (cents, vecs.map (nearestIdx cents))
  | fuel + 1 =>
    let labels := vecs.map (nearestIdx cents)
    let cents2 := updateCentroids vecs labels cents
    if cents2 = cents then (cents, labels)
    else kmeansLoop vecs cents2 fuel

/-- Maximum number of K-means refinement iterations. -/
def maxIter : Nat := 100

/-- A fitted ArchetypeModel: the normalization transform fit on the
reference corpus and the stabilized centroids with the reference labels. -/
structure ArchetypeModel where
  center : StyleVec
  scale : StyleVec
  centroids : List StyleVec
  labels : List Nat
deriving DecidableEq

/-- Modelled from the spec: the Archetype Clusterer's fit — compute the
per-feature center/scale from the reference set only, normalize every
reference vector, and run the deterministic K-means partition with
exactly K_arch groups (initial centroids: the first K_arch normalized
vectors).  A reference set with fewer rows than K_arch fails with a
ConfigurationError; K is never silently reduced. -/
def fitArchetypes (refVecs : List StyleVec) (K_arch : Nat) :
    Except PipelineError ArchetypeModel :=
  if refVecs.length < K_arch then Except.error PipelineError.configurationError
  else
    let c := centerOf refVecs
    let s := scaleOf refVecs
    let normed := refVecs.map (fun v => normalizeVec c s v)
    let init := normed.take K_arch
    let fitted := kmeansLoop normed init maxIter
    Except.ok { center := c, scale := s, centroids := fitted.1, labels := fitted.2 }

/-- Modelled from the spec: one reference player of the corpus — an
identifier and a precomputed StyleVector. -/
structure RefPlayer where
  pid : String
  vec : StyleVec
deriving DecidableEq

/-- Ranking order on scored peers: ascending distance, ties broken
lexicographically on the player identifier, so output is deterministic. -/
def peerLE (a b : String × ℚ) : Prop :=
  a.2 < b.2 ∨ (a.2 = b.2 ∧ a.1 ≤ b.1)

instance : DecidableRel peerLE := fun a b =>
  decidable_of_iff (a.2 < b.2 ∨ (a.2 = b.2 ∧ a.1 ≤ b.1)) Iff.rfl

instance : IsTotal (String × ℚ) peerLE where
  total a b := by
    rcases lt_trichotomy a.2 b.2 with h | h | h
    · exact Or.inl (Or.inl h)
    · rcases le_total a.1 b.1 with h1 | h1
      · exact Or.inl (Or.inr ⟨h, h1⟩)
      · exact Or.inr (Or.inr ⟨h.symm, h1⟩)
    · exact Or.inr (Or.inl h)

instance : IsTrans (String × ℚ) peerLE where
  trans a b c hab hbc := by
    rcases hab with h | ⟨he, hs⟩ <;> rcases hbc with h2 | ⟨he2, hs2⟩
    · exact Or.inl (lt_trans h h2)
    · exact Or.inl (by rw [← he2]; exact h)
    · exact Or.inl (by rw [he]; exact h2)
    · exact Or.inr ⟨he.trans he2, le_trans hs hs2⟩

/-- The scored list the Peer Matcher ranks: every reference player paired
with the (squared) Euclidean distance between its normalized vector and
the normalized query. -/
def scorePeers (corpus : List RefPlayer) (model : ArchetypeModel)
    (query : StyleVec) : List (String × ℚ) :=
  corpus.map (fun p =>
    (p.pid, sqDist (normalizeVec model.center model.scale p.vec)
      (normalizeVec model.center model.scale query)))

/-- Modelled from the spec: the Peer Matcher — normalize the query with
the model's fitted center/scale (never refit), score every reference
player by distance, sort ascending with the deterministic tie-break, and
truncate to the top K, capped at the number of reference players. -/
def matchPeers (corpus : List RefPlayer) (model : ArchetypeModel)
    (query : StyleVec) (K : Nat) : List (String × ℚ) :=
  ((scorePeers corpus model query).insertionSort peerLE).take K

/-- A five-player reference corpus for Scenario 5. -/
def corpusFive : List RefPlayer :=
  [{ pid := "anna", vec := [0] }, { pid := "ben", vec := [1] },
   { pid := "cara", vec := [2] }, { pid := "dan", vec := [3] },
   { pid := "eve", vec := [4] }]

/-- A fitted model with identity-like normalization, for the scenarios. -/
def plainModel : ArchetypeModel :=
  { center := [0], scale := [1], centroids := [], labels := [] }

/-- A two-player corpus for the C7 witness. -/
def corpusTwo : List RefPlayer :=
  [{ pid := "ann", vec := [0] }, { pid := "bob", vec := [4] }]

lemma gameEvals_eq_map (g : Game) :
    gameEvals g = g.mainline.map (fun n => EvalEntry.boundMethod n.evalAnn) := by
  unfold gameEvals nodeEvalAttr
  induction g.mainline with
  | nil => rfl
  | cons n rest ih => simp [List.filterMap_cons, ih]

/-- C1: `pgn_to_games_df` produces one record per game of the stream; the
record of a game lists its mainline moves as coordinate (UCI) strings, and
its header mapping contains at least the White, Black, Result, ECO,
Opening and TimeControl keys. -/
theorem pgn_to_games_df_record_shape (games : List Game) (g : Game) (hg : g ∈ games) :
    (pgn_to_games_df games).length = games.length ∧
    gameToRec g ∈ pgn_to_games_df games ∧
    (gameToRec g).moves = g.mainline.map (fun n => n.move.uci) ∧
    (∀ s ∈ (gameToRec g).moves, ∃ m : Move, s = m.uci) ∧
    (∀ k ∈ (["White", "Black", "Result", "ECO", "Opening", "TimeControl"] : List String),
      ∃ v, (k, v) ∈ (gameToRec g).headerMapping) := by
  refine ⟨by simp [pgn_to_games_df], List.mem_map_of_mem gameToRec hg, rfl, ?_, ?_⟩
  · intro s hs
    simp only [gameToRec, gameMoves, List.mem_map] at hs
    obtain ⟨n, _, hn⟩ := hs
    exact ⟨n.move, hn.symm⟩
  · intro k hk
    fin_cases hk
    · exact ⟨(gameToRec g).white, by simp [GameRec.headerMapping]⟩
    · exact ⟨(gameToRec g).black, by simp [GameRec.headerMapping]⟩
    · exact ⟨(gameToRec g).result, by simp [GameRec.headerMapping]⟩
    · exact ⟨(gameToRec g).eco, by simp [GameRec.headerMapping]⟩
    · exact ⟨(gameToRec g).opening, by simp [GameRec.headerMapping]⟩
    · exact ⟨(gameToRec g).time_control, by simp [GameRec.headerMapping]⟩

/-- Witness for C1 at a concrete one-game stream. -/
theorem pgn_to_games_df_record_shape_witness :
    (pgn_to_games_df [ChessRec.badGame]).length = 1 ∧
    gameToRec badGame ∈ pgn_to_games_df [badGame] := by
  have h := pgn_to_games_df_record_shape [badGame] badGame (by simp)
  exact ⟨h.1, h.2.1⟩

/-- C2 counterexample: a malformed game is not skipped by
`pgn_to_games_df` — it still yields a record — so the output does not
consist of the well-formed games only, refuting the claim that the parser
skips the offending game. -/
theorem pgn_to_games_df_no_skip_counterexample :
    wellFormedGame badGame = false ∧
    (pgn_to_games_df [badGame]).length = 1 ∧
    ([badGame].filter wellFormedGame).length = 0 := by
  exact ⟨rfl, rfl, rfl⟩

/-- C2 amended: the parser continues past a malformed game (later games
still produce records, one record per stream game), but the offending game
is not skipped — its record is built from whatever the reader recovered,
the collected errors being ignored — and no count of skipped games is
surfaced: the return value is the record list alone. -/
theorem pgn_to_games_df_continues_without_skip_count
    (games rest : List Game) (g : Game) (hdr : List (String × String))
    (ml : List GameNode) (e1 e2 : List String) :
    (pgn_to_games_df games).length = games.length ∧
    pgn_to_games_df (g :: rest) = gameToRec g :: pgn_to_games_df rest ∧
    gameToRec { headers := hdr, mainline := ml, errors := e1 }
      = gameToRec { headers := hdr, mainline := ml, errors := e2 } := by
  refine ⟨by simp [pgn_to_games_df], rfl, ?_⟩
  simp [gameToRec, gameMoves, gameEvals]

/-- C8: a `requests.RequestException` makes `fetch_user_games` return the
empty string (it is caught, not propagated), which is exactly the value
returned for a successful fetch of a user with an empty game history, so
the two cases cannot be told apart from the return value. -/
theorem fetch_user_games_empty_on_failure :
    fetch_user_games FetchOutcome.requestFailure = "" ∧
    (∀ r : HttpResponse, r.statusError = true →
      fetch_user_games (FetchOutcome.response r) = "") ∧
    fetch_user_games (FetchOutcome.response { text := "", statusError := false }) = "" := by
  refine ⟨rfl, ?_, rfl⟩
  intro r hr
  simp [fetch_user_games, hr]

/-- Witness for C8 at a concrete error response. -/
theorem fetch_user_games_empty_on_failure_witness :
    fetch_user_games (FetchOutcome.response { text := "x", statusError := true }) = "" :=
  fetch_user_games_empty_on_failure.2.1 { text := "x", statusError := true } rfl

/-- C9: in every record produced by either parser, the evals list has
exactly one entry per move, and each entry is the bound method object, not
a numeric score: the guard `hasattr(nxt, "eval") and nxt.eval is not None`
holds at every node because `eval` is a method of `GameNode`. -/
theorem evals_one_entry_per_move (g : Game) :
    (∀ n : GameNode, (nodeEvalAttr n).isSome = true) ∧
    (gameToRec g).evals.length = (gameToRec g).moves.length ∧
    (eliteGameToRec g).evals.length = (eliteGameToRec g).moves.length ∧
    (∀ e ∈ (gameToRec g).evals,
      (∃ a, e = EvalEntry.boundMethod a) ∧ ∀ cp : Int, e ≠ EvalEntry.score cp) := by
  refine ⟨fun n => rfl, ?_, ?_, ?_⟩
  · simp [gameToRec, gameMoves, gameEvals_eq_map]
  · simp [eliteGameToRec, gameToRec, gameMoves, gameEvals_eq_map]
  · intro e he
    simp only [gameToRec, gameEvals_eq_map, List.mem_map] at he
    obtain ⟨n, _, hn⟩ := he
    refine ⟨⟨n.evalAnn, hn.symm⟩, ?_⟩
    intro cp hcp
    rw [← hn] at hcp
    exact EvalEntry.noConfusion hcp

/-- Witness for C9 at the concrete one-move game: one eval entry for its
one move, and the entry is the bound method object, not a score. -/
theorem evals_one_entry_per_move_witness :
    (gameToRec sampleGame).evals.length = (gameToRec sampleGame).moves.length ∧
    EvalEntry.boundMethod (some 25) ≠ EvalEntry.score 25 :=
  ⟨(evals_one_entry_per_move sampleGame).2.1,
   ((evals_one_entry_per_move sampleGame).2.2.2
      (EvalEntry.boundMethod (some 25)) (by decide)).2 25⟩

/-- C10: `parse_elite_pgn_fast` returns at most `n_games` rows, and fewer
than `n_games` rows exactly when the file contains fewer than `n_games`
games (reaching end of file stops the loop instead of erroring). -/
theorem parse_elite_pgn_fast_row_count (fileGames : List Game) (n_games : Nat) :
    (parse_elite_pgn_fast fileGames n_games).length = min n_games fileGames.length ∧
    (parse_elite_pgn_fast fileGames n_games).length ≤ n_games ∧
    ((parse_elite_pgn_fast fileGames n_games).length < n_games ↔
      fileGames.length < n_games) := by
  have hlen : (parse_elite_pgn_fast fileGames n_games).length = min n_games fileGames.length := by
    simp [parse_elite_pgn_fast]
  refine ⟨hlen, ?_, ?_⟩
  · rw [hlen]; omega
  · rw [hlen]; omega

lemma meanQ_perm {xs ys : List ℚ} (h : xs.Perm ys) : meanQ xs = meanQ ys := by
  unfold meanQ
  rw [h.sum_eq, h.length_eq]

lemma proportionTrue_perm {xs ys : List Bool} (h : xs.Perm ys) :
    proportionTrue xs = proportionTrue ys := by
  unfold proportionTrue
  rw [h.countP_eq, h.length_eq]

/-- C6: the Style Aggregator is order-independent — permuting the input
GameFeatureRows yields an identical StyleVector. -/
theorem aggregateStyle_perm_invariant (rows1 rows2 : List GameFeatureRow)
    (h : rows1.Perm rows2) :
    aggregateStyle rows1 = aggregateStyle rows2 := by
  unfold aggregateStyle
  rw [meanQ_perm (h.map (fun r => r.ply_count)),
    meanQ_perm (h.map (fun r => r.trade_count)),
    meanQ_perm (h.filterMap (fun r => r.first_queen_ply)),
    proportionTrue_perm (h.map (fun r => r.castled_early)),
    meanQ_perm (h.map (fun r => r.check_count)),
    proportionTrue_perm (h.map (fun r => r.sacrifice)),
    meanQ_perm (h.map (fun r => r.result_score))]

/-- Witness for C6 at a concrete two-row swap. -/
theorem aggregateStyle_perm_invariant_witness :
    aggregateStyle [rowA, rowB] = aggregateStyle [rowB, rowA] :=
  aggregateStyle_perm_invariant [rowA, rowB] [rowB, rowA]
    (List.Perm.swap rowB rowA [])

lemma result_partition (gs : List OpeningOutcome) :
    winCount gs + drawCount gs + lossCount gs = gs.length := by
  induction gs with
  | nil => rfl
  | cons g rest ih =>
    unfold winCount drawCount lossCount at ih ⊢
    cases hg : g.result <;>
      simp [List.countP_cons, hg] <;> omega

/-- C3: score_pct is (wins + 0.5·draws) / games_played over the matched
peers' games with the given code on the requested side; the counts
partition games_played; and Scenario 3 (10 C72 games as White: 6 wins, 2
draws, 2 losses) yields score_pct = 0.70. -/
theorem score_pct_spec (games : List OpeningOutcome) (side : Side) (code : String)
    (h : 0 < (outcomesFor games side code).length) :
    score_pct games side code
      = ((winCount (outcomesFor games side code) : ℚ)
          + (1/2) * (drawCount (outcomesFor games side code) : ℚ))
        / (((outcomesFor games side code).length : Nat) : ℚ) ∧
    score_pct games side code * (((outcomesFor games side code).length : Nat) : ℚ)
      = (winCount (outcomesFor games side code) : ℚ)
        + (1/2) * (drawCount (outcomesFor games side code) : ℚ) ∧
    winCount (outcomesFor games side code) + drawCount (outcomesFor games side code)
      + lossCount (outcomesFor games side code) = (outcomesFor games side code).length ∧
    score_pct scenarioPeerGames Side.white "C72" = 7/10 := by
  have hform : score_pct games side code
      = ((winCount (outcomesFor games side code) : ℚ)
          + (1/2) * (drawCount (outcomesFor games side code) : ℚ))
        / (((outcomesFor games side code).length : Nat) : ℚ) := by
    unfold score_pct
    ring_nf
  have hne : (((outcomesFor games side code).length : Nat) : ℚ) ≠ 0 := by
    exact_mod_cast h.ne'
  refine ⟨hform, ?_, result_partition _, ?_⟩
  · rw [hform, div_mul_cancel₀ _ hne]
  · have h1 : winCount (outcomesFor scenarioPeerGames Side.white "C72") = 6 := by rfl
    have h2 : drawCount (outcomesFor scenarioPeerGames Side.white "C72") = 2 := by rfl
    have h3 : (outcomesFor scenarioPeerGames Side.white "C72").length = 10 := by rfl
    unfold score_pct
    rw [h1, h2, h3]
    norm_num

/-- Witness for C3 at the Scenario 3 peer set. -/
theorem score_pct_spec_witness :
    score_pct scenarioPeerGames Side.white "C72" = 7/10 :=
  (score_pct_spec scenarioPeerGames Side.white "C72" (by decide)).2.2.2

lemma updateCentroids_length (vecs : List StyleVec) (labels : List Nat)
    (cents : List StyleVec) :
    (updateCentroids vecs labels cents).length = cents.length := by
  simp [updateCentroids]

lemma kmeansLoop_length (vecs : List StyleVec) :
    ∀ (fuel : Nat) (cents : List StyleVec),
      (kmeansLoop vecs cents fuel).1.length = cents.length := by
  intro fuel
  induction fuel with
  | zero => intro cents; rfl
  | succ n ih =>
    intro cents
    unfold kmeansLoop
    by_cases hc : updateCentroids vecs (vecs.map (nearestIdx cents)) cents = cents
    · simp [hc]
    · simp only [hc, if_false]
      rw [ih (updateCentroids vecs (vecs.map (nearestIdx cents)) cents),
        updateCentroids_length]

/-- C4: fitting a reference set smaller than K_arch fails with a
ConfigurationError; a successful fit always carries exactly K_arch
centroids (K is never silently reduced); in particular 4 reference
players with K_arch = 5 yield the ConfigurationError. -/
theorem fitArchetypes_configuration_error (refVecs : List StyleVec) (K_arch : Nat) :
    (refVecs.length < K_arch →
      fitArchetypes refVecs K_arch = Except.error PipelineError.configurationError) ∧
    (¬ refVecs.length < K_arch →
      ∃ m, fitArchetypes refVecs K_arch = Except.ok m ∧ m.centroids.length = K_arch) ∧
    fitArchetypes [[1], [2], [3], [4]] 5 = Except.error PipelineError.configurationError := by
  refine ⟨fun h => by simp [fitArchetypes, h], ?_, rfl⟩
  intro hlt
  refine ⟨{ center := centerOf refVecs, scale := scaleOf refVecs,
            centroids := (kmeansLoop
              (refVecs.map (fun v => normalizeVec (centerOf refVecs) (scaleOf refVecs) v))
              ((refVecs.map (fun v => normalizeVec (centerOf refVecs) (scaleOf refVecs) v)).take K_arch)
              maxIter).1,
            labels := (kmeansLoop
              (refVecs.map (fun v => normalizeVec (centerOf refVecs) (scaleOf refVecs) v))
              ((refVecs.map (fun v => normalizeVec (centerOf refVecs) (scaleOf refVecs) v)).take K_arch)
              maxIter).2 },
    by simp only [fitArchetypes, hlt, if_false], ?_⟩
  show (kmeansLoop
      (refVecs.map (fun v => normalizeVec (centerOf refVecs) (scaleOf refVecs) v))
      ((refVecs.map (fun v => normalizeVec (centerOf refVecs) (scaleOf refVecs) v)).take K_arch)
      maxIter).1.length = K_arch
  rw [kmeansLoop_length, List.length_take, List.length_map]
  omega

/-- Witness for C4: the guard fires on 2 reference vectors with K_arch = 3,
while a fit of the same reference set with K_arch = 2 succeeds. -/
theorem fitArchetypes_configuration_error_witness :
    fitArchetypes [[0], [4]] 3 = Except.error PipelineError.configurationError ∧
    fitArchetypes [[0], [4]] 2 ≠ Except.error PipelineError.configurationError := by
  constructor
  · exact (fitArchetypes_configuration_error [[0], [4]] 3).1 (by decide)
  · obtain ⟨m, hm, -⟩ := (fitArchetypes_configuration_error [[0], [4]] 2).2.1 (by decide)
    rw [hm]
    exact fun h => Except.noConfusion h

lemma matchPeers_length (corpus : List RefPlayer) (model : ArchetypeModel)
    (query : StyleVec) (K : Nat) :
    (matchPeers corpus model query K).length = min K corpus.length := by
  simp [matchPeers, scorePeers]

/-- C5: the Peer Matcher caps K at the number of available reference
players — the result has min K (corpus size) peers, so requesting more
than available returns all available rather than an error; in particular
top-K = 10 from a 5-player corpus returns exactly 5 peers. -/
theorem matchPeers_caps_K (corpus : List RefPlayer) (model : ArchetypeModel)
    (query : StyleVec) (K : Nat) :
    (matchPeers corpus model query K).length = min K corpus.length ∧
    (corpus.length ≤ K → (matchPeers corpus model query K).length = corpus.length) ∧
    (matchPeers corpusFive plainModel [0] 10).length = 5 := by
  refine ⟨matchPeers_length corpus model query K, ?_, ?_⟩
  · intro h
    rw [matchPeers_length]
    omega
  · rw [matchPeers_length]
    rfl

/-- Witness for C5: requesting 10 peers from the 5-player corpus returns
exactly 5. -/
theorem matchPeers_caps_K_witness :
    (matchPeers corpusFive plainModel [0] 10).length = 5 :=
  (matchPeers_caps_K corpusFive plainModel [0] 10).2.1 (by decide)

lemma sqDist_symm_lemma (v w : StyleVec) : sqDist v w = sqDist w v := by
  induction v generalizing w with
  | nil => cases w <;> rfl
  | cons a asTail ih =>
    cases w with
    | nil => rfl
    | cons b bsTail =>
      unfold sqDist at ih ⊢
      simp only [List.zipWith_cons_cons, List.sum_cons]
      rw [ih bsTail]
      ring_nf

lemma sqDist_self_zero (v : StyleVec) : sqDist v v = 0 := by
  induction v with
  | nil => rfl
  | cons a asTail ih =>
    unfold sqDist at ih ⊢
    simp only [List.zipWith_cons_cons, List.sum_cons, ih]
    ring_nf

lemma sqDist_nonneg (v w : StyleVec) : 0 ≤ sqDist v w := by
  induction v generalizing w with
  | nil => cases w <;> simp [sqDist]
  | cons a asTail ih =>
    cases w with
    | nil => simp [sqDist]
    | cons b bsTail =>
      unfold sqDist at ih ⊢
      simp only [List.zipWith_cons_cons, List.sum_cons]
      have := mul_self_nonneg (a - b)
      have := ih bsTail
      linarith

/-- C7: the peer distance is symmetric and evaluates to 0 on identical
vectors, and a query identical to a reference player's own StyleVector
ranks that player as the nearest peer with distance 0 (that player being
the only corpus member at distance 0 from the query). -/
theorem matchPeers_self_nearest (corpus : List RefPlayer) (model : ArchetypeModel)
    (query : StyleVec) (K : Nat) (p : RefPlayer)
    (hp : p ∈ corpus) (hK : 1 ≤ K) (hq : query = p.vec)
    (huniq : ∀ q ∈ corpus,
      sqDist (normalizeVec model.center model.scale q.vec)
        (normalizeVec model.center model.scale query) = 0 → q.pid = p.pid) :
    (∀ v w : StyleVec, sqDist v w = sqDist w v) ∧
    (∀ v : StyleVec, sqDist v v = 0) ∧
    (matchPeers corpus model query K).head? = some (p.pid, 0) := by
  refine ⟨sqDist_symm_lemma, sqDist_self_zero, ?_⟩
  have hfp : (p.pid, (0 : ℚ)) ∈ scorePeers corpus model query := by
    unfold scorePeers
    refine List.mem_map.mpr ⟨p, hp, ?_⟩
    rw [hq, sqDist_self_zero]
  have hperm := List.perm_insertionSort peerLE (scorePeers corpus model query)
  have hsorted := List.sorted_insertionSort peerLE (scorePeers corpus model query)
  rcases hsl : List.insertionSort peerLE (scorePeers corpus model query) with _ | ⟨h0, t⟩
  · exfalso
    have hmem : (p.pid, (0 : ℚ)) ∈ List.insertionSort peerLE (scorePeers corpus model query) :=
      hperm.mem_iff.mpr hfp
    rw [hsl] at hmem
    exact List.not_mem_nil _ hmem
  · have hmem0 : h0 ∈ scorePeers corpus model query := by
      have : h0 ∈ List.insertionSort peerLE (scorePeers corpus model query) := by
        rw [hsl]; exact List.mem_cons_self _ _
      exact hperm.mem_iff.mp this
    obtain ⟨q, hqmem, hfq⟩ := List.mem_map.mp hmem0
    have h0nonneg : 0 ≤ h0.2 := by
      rw [← hfq]
      exact sqDist_nonneg _ _
    have hpin : (p.pid, (0 : ℚ)) ∈ h0 :: t := by
      rw [← hsl]
      exact hperm.mem_iff.mpr hfp
    have hh0 : h0 = (p.pid, (0 : ℚ)) := by
      rcases List.mem_cons.mp hpin with heq | hint
      · exact heq.symm
      · have hrel : peerLE h0 (p.pid, (0 : ℚ)) := by
          rw [hsl] at hsorted
          exact (List.sorted_cons.mp hsorted).1 _ hint
        rcases hrel with hlt | ⟨heq2, _⟩
        · exact absurd hlt (not_lt.mpr h0nonneg)
        · have hdq : sqDist (normalizeVec model.center model.scale q.vec)
              (normalizeVec model.center model.scale query) = 0 := by
            have h2 : h0.2 = 0 := heq2
            rw [← hfq] at h2
            exact h2
          have hpid := huniq q hqmem hdq
          rw [← hfq, hpid, hdq]
    obtain ⟨k, rfl⟩ : ∃ k, K = k + 1 := ⟨K - 1, by omega⟩
    unfold matchPeers
    rw [hsl, hh0]
    rfl

/-- Witness for C7: querying with ann's own vector ranks ann first with
distance 0 among K = 5. -/
theorem matchPeers_self_nearest_witness :
    (matchPeers corpusTwo plainModel [0] 5).head? = some ("ann", 0) := by
  have h := matchPeers_self_nearest corpusTwo plainModel [0] 5
    { pid := "ann", vec := [0] }
    (List.mem_cons_self _ _) (by omega) rfl ?_
  · exact h.2.2
  · intro q hqm hdq
    fin_cases hqm
    · rfl
    · exfalso
      revert hdq
      norm_num [sqDist, normalizeVec, plainModel, List.range_succ]

end ChessRec

